import Mathlib

/-!
Verification of the transform stage of the Financial-Transaction-ETL-Pipeline
(src/src/transform.py), shallowly embedded in Lean 4.

Two layers of modelling are used, both translated from the source:

* a frame layer (`Frame`, `clean_data`) mirroring the pandas `DataFrame`
  operations in `clean_data` — `drop_duplicates()` followed by
  `.str.strip()` on every object-dtype column;
* a typed layer (`Customer`, `Merchant`, `Transaction`, the dimension
  builders and `transform_facts`) mirroring the dimensional model.
  Calendar dates are modelled structurally (`Date`); the source passes
  them around as canonical zero-padded ISO `YYYY-MM-DD` strings (produced
  by `strftime('%Y-%m-%d')`), for which parsing and formatting are exact
  inverses, so the `to_datetime`/`strftime` round trip in the source is
  the identity here.
-/

/-- A cell of a pandas DataFrame: a string, a number, or NaN/None.
`str` cells model Python strings, `num` cells model numeric scalars
(amounts pass through the transform untouched, so `Int` suffices),
`null` models NaN/None. -/
inductive Value where
  | str (s : String)
  | num (n : Int)
  | null
deriving DecidableEq, Repr

/-- Python `str.strip()` whitespace set (ASCII portion: space, tab,
newline, carriage return, vertical tab, form feed). -/
def isPySpace (c : Char) : Bool :=
  c = ' ' || c = '\t' || c = '\n' || c = '\r' || c.toNat = 11 || c.toNat = 12

/-- Strip leading and trailing whitespace from a character list. -/
def stripChars (l : List Char) : List Char :=
  ((l.dropWhile isPySpace).reverse.dropWhile isPySpace).reverse

/-- Python `str.strip()`. -/
def pyStrip (s : String) : String := String.mk (stripChars s.data)

/-- `series.str.strip()` on one cell of an object-dtype column: strings
are trimmed, non-string values become NaN, NaN stays NaN. -/
def stripCell : Value → Value
  | Value.str s => Value.str (pyStrip s)
  | Value.num _ => Value.null
  | Value.null => Value.null

/-- Apply `.str.strip()` to the cells of the object-dtype columns of one
row: `flags` records, per column, whether its dtype is `object`. -/
def stripRowUsing (flags : List Bool) (cells : List Value) : List Value :=
  List.zipWith (fun f c => if f then stripCell c else c) flags cells

/-- `DataFrame.drop_duplicates()` with an accumulator of rows already
seen: keeps the first occurrence of each duplicated row. -/
def dropDupAux [DecidableEq α] (seen : List α) : List α → List α
  | [] => []
  | x :: xs => if x ∈ seen then dropDupAux seen xs else x :: dropDupAux (x :: seen) xs

/-- `DataFrame.drop_duplicates()`: row-wise deduplication over all
columns, first occurrence kept, order preserved. -/
def dropDuplicates [DecidableEq α] (l : List α) : List α := dropDupAux [] l

/-- A rectangular pandas DataFrame: column names, a per-column flag for
object (string) dtype as reported by `select_dtypes(include=['object'])`,
and the rows. -/
structure Frame where
  cols : List String
  objectCol : List Bool
  rows : List (List Value)
deriving DecidableEq, Repr

/-- `clean_data` (transform.py lines 13-41): remove duplicate rows, then
trim whitespace from every object-dtype column. -/
def clean_data (df : Frame) : Frame :=
  { df with rows := (dropDuplicates df.rows).map (stripRowUsing df.objectCol) }

/- ### List lemmas for `dropWhile`, used for the strip fixed point -/

theorem dropWhile_eq_self_of_head (p : α → Bool) (l : List α)
    (h : ∀ a, l.head? = some a → p a = false) : l.dropWhile p = l := by
  cases l with
  | nil => rfl
  | cons x xs =>
    have hx : p x = false := h x rfl
    simp [List.dropWhile_cons, hx]

theorem head_dropWhile_false (p : α → Bool) (l : List α) (a : α)
    (h : (l.dropWhile p).head? = some a) : p a = false := by
  induction l with
  | nil => simp [List.dropWhile] at h
  | cons x xs ih =>
    by_cases hx : p x = true
    · rw [List.dropWhile_cons, if_pos hx] at h
      exact ih h
    · rw [List.dropWhile_cons, if_neg hx] at h
      simp at h
      rw [← h]
      exact Bool.not_eq_true _ |>.mp hx

theorem dropWhile_idem (p : α → Bool) (l : List α) :
    (l.dropWhile p).dropWhile p = l.dropWhile p :=
  dropWhile_eq_self_of_head p _ (fun a ha => head_dropWhile_false p l a ha)

theorem exists_append_dropWhile (p : α → Bool) (l : List α) :
    ∃ t, t ++ l.dropWhile p = l := by
  induction l with
  | nil => exact ⟨[], rfl⟩
  | cons x xs ih =>
    by_cases hx : p x = true
    · obtain ⟨t, ht⟩ := ih
      refine ⟨x :: t, ?_⟩
      rw [List.dropWhile_cons, if_pos hx]
      simpa using ht
    · exact ⟨[], by rw [List.dropWhile_cons, if_neg hx]; rfl⟩

theorem head_stripChars_false (l : List Char) (a : Char)
    (h : (stripChars l).head? = some a) : isPySpace a = false := by
  unfold stripChars at h
  obtain ⟨t, ht⟩ := exists_append_dropWhile isPySpace (l.dropWhile isPySpace).reverse
  -- `stripChars l` is a prefix of `l.dropWhile isPySpace`
  have hm : l.dropWhile isPySpace
      = ((l.dropWhile isPySpace).reverse.dropWhile isPySpace).reverse ++ t.reverse := by
    have := congrArg List.reverse ht
    simpa [List.reverse_append] using this.symm
  cases hc : ((l.dropWhile isPySpace).reverse.dropWhile isPySpace).reverse with
  | nil => rw [hc] at h; simp at h
  | cons b bs =>
    rw [hc] at h
    simp at h
    have : (l.dropWhile isPySpace).head? = some b := by
      rw [hm, hc]
      rfl
    rw [← h]
    exact head_dropWhile_false isPySpace l b this

theorem stripChars_idem (l : List Char) : stripChars (stripChars l) = stripChars l := by
  have h1 : (stripChars l).dropWhile isPySpace = stripChars l :=
    dropWhile_eq_self_of_head _ _ (fun a ha => head_stripChars_false l a ha)
  show stripChars (stripChars l) = stripChars l
  unfold stripChars
  unfold stripChars at h1
  rw [h1]
  rw [List.reverse_reverse]
  rw [dropWhile_idem]

theorem pyStrip_idem (s : String) : pyStrip (pyStrip s) = pyStrip s :=
  congrArg String.mk (stripChars_idem s.data)

theorem stripCell_idem (v : Value) : stripCell (stripCell v) = stripCell v := by
  cases v with
  | str s => simp [stripCell, pyStrip_idem]
  | num n => rfl
  | null => rfl

theorem stripRowUsing_idem (flags : List Bool) (cells : List Value) :
    stripRowUsing flags (stripRowUsing flags cells) = stripRowUsing flags cells := by
  induction flags generalizing cells with
  | nil => rfl
  | cons f fs ih =>
    cases cells with
    | nil => rfl
    | cons c cs =>
      unfold stripRowUsing
      simp only [List.zipWith_cons_cons]
      refine congrArg₂ _ ?_ (ih cs)
      cases f with
      | true => simp [stripCell_idem]
      | false => simp

/- ### Lemmas about `dropDuplicates` -/

theorem dropDupAux_sublist [DecidableEq α] (seen : List α) (l : List α) :
    List.Sublist (dropDupAux seen l) l := by
  induction l generalizing seen with
  | nil => exact List.Sublist.refl []
  | cons x xs ih =>
    unfold dropDupAux
    by_cases hx : x ∈ seen
    · rw [if_pos hx]
      exact (ih seen).cons x
    · rw [if_neg hx]
      exact (ih (x :: seen)).cons₂ x

theorem mem_dropDupAux [DecidableEq α] (seen : List α) (l : List α) (a : α) :
    a ∈ dropDupAux seen l ↔ a ∈ l ∧ a ∉ seen := by
  induction l generalizing seen with
  | nil => simp [dropDupAux]
  | cons x xs ih =>
    unfold dropDupAux
    by_cases hx : x ∈ seen
    · rw [if_pos hx, ih]
      constructor
      · rintro ⟨h1, h2⟩
        exact ⟨List.mem_cons_of_mem x h1, h2⟩
      · rintro ⟨h1, h2⟩
        rcases List.mem_cons.mp h1 with rfl | h1
        · exact absurd hx h2
        · exact ⟨h1, h2⟩
    · rw [if_neg hx]
      simp only [List.mem_cons, ih, List.mem_cons]
      constructor
      · rintro (rfl | ⟨h1, h2⟩)
        · exact ⟨Or.inl rfl, hx⟩
        · exact ⟨Or.inr h1, fun hs => h2 (Or.inr hs)⟩
      · rintro ⟨rfl | h1, h2⟩
        · exact Or.inl rfl
        · by_cases hax : a = x
          · exact Or.inl hax
          · refine Or.inr ⟨h1, fun hs => ?_⟩
            rcases hs with h3 | h3
            · exact hax h3
            · exact h2 h3

theorem nodup_dropDupAux [DecidableEq α] (seen : List α) (l : List α) :
    (dropDupAux seen l).Nodup := by
  induction l generalizing seen with
  | nil => exact List.nodup_nil
  | cons x xs ih =>
    unfold dropDupAux
    by_cases hx : x ∈ seen
    · rw [if_pos hx]; exact ih seen
    · rw [if_neg hx]
      refine List.nodup_cons.mpr ⟨?_, ih (x :: seen)⟩
      intro hmem
      exact ((mem_dropDupAux (x :: seen) xs x).mp hmem).2 (List.mem_cons_self x seen)

theorem dropDupAux_eq_self [DecidableEq α] (seen : List α) (l : List α)
    (h : l.Nodup) (hd : ∀ a ∈ l, a ∉ seen) : dropDupAux seen l = l := by
  induction l generalizing seen with
  | nil => rfl
  | cons x xs ih =>
    obtain ⟨hx, hxs⟩ := List.nodup_cons.mp h
    unfold dropDupAux
    rw [if_neg (hd x (List.mem_cons_self x xs))]
    refine congrArg (x :: ·) (ih (x :: seen) hxs ?_)
    intro a ha hmem
    rcases List.mem_cons.mp hmem with rfl | hmem
    · exact hx ha
    · exact hd a (List.mem_cons_of_mem x ha) hmem

theorem dropDuplicates_sublist [DecidableEq α] (l : List α) :
    List.Sublist (dropDuplicates l) l :=
  dropDupAux_sublist [] l

theorem mem_dropDuplicates [DecidableEq α] (l : List α) (a : α) :
    a ∈ dropDuplicates l ↔ a ∈ l := by
  rw [dropDuplicates, mem_dropDupAux]
  simp

theorem nodup_dropDuplicates [DecidableEq α] (l : List α) :
    (dropDuplicates l).Nodup :=
  nodup_dropDupAux [] l

theorem dropDuplicates_eq_self [DecidableEq α] (l : List α) (h : l.Nodup) :
    dropDuplicates l = l :=
  dropDupAux_eq_self [] l h (by simp)

theorem dropDuplicates_idem [DecidableEq α] (l : List α) :
    dropDuplicates (dropDuplicates l) = dropDuplicates l :=
  dropDuplicates_eq_self _ (nodup_dropDuplicates l)

/- ### The double application of `clean_data` is a fixed point -/

theorem map_eq_self_of_fixed {f : α → α} {l : List α}
    (h : ∀ a ∈ l, f a = a) : l.map f = l := by
  induction l with
  | nil => rfl
  | cons x xs ih =>
    simp only [List.map_cons]
    rw [h x (List.mem_cons_self x xs), ih (fun a ha => h a (List.mem_cons_of_mem x ha))]

theorem clean_data_rows (df : Frame) :
    (clean_data df).rows = (dropDuplicates df.rows).map (stripRowUsing df.objectCol) := rfl

theorem clean_data_clean_data_rows (df : Frame) :
    (clean_data (clean_data df)).rows
      = dropDuplicates ((dropDuplicates df.rows).map (stripRowUsing df.objectCol)) := by
  rw [clean_data_rows, clean_data_rows, clean_data]
  refine map_eq_self_of_fixed ?_
  intro r hr
  have hrv : r ∈ (dropDuplicates df.rows).map (stripRowUsing df.objectCol) :=
    (dropDuplicates_sublist _).subset hr
  obtain ⟨y, _, rfl⟩ := List.mem_map.mp hrv
  exact stripRowUsing_idem df.objectCol y

theorem clean_data_eq_self (df : Frame) (h1 : df.rows.Nodup)
    (h2 : ∀ r ∈ df.rows, stripRowUsing df.objectCol r = r) : clean_data df = df := by
  unfold clean_data
  rw [dropDuplicates_eq_self _ h1, map_eq_self_of_fixed h2]

/-- A two-column record set in which trimming turns two distinct rows
into equal rows: cleaning it once leaves a duplicate behind. -/
def dupFrame : Frame :=
  { cols := ["v"], objectCol := [true],
    rows := [[Value.str "a"], [Value.str "a "]] }

/- ### Calendar dates and the date dimension -/

/-- A calendar date (proleptic Gregorian). The source carries dates as
canonical ISO `YYYY-MM-DD` strings and as pandas timestamps; both
representations are in bijection with this structure, so the
`to_datetime` / `strftime('%Y-%m-%d')` conversions of the source are the
identity here. -/
structure Date where
  year : Nat
  month : Nat
  day : Nat
deriving DecidableEq, Repr

/-- Numeric encoding giving the chronological order used by
`sort_values()` on valid dates. -/
def Date.code (d : Date) : Nat := d.year * 10000 + d.month * 100 + d.day

/-- The chronological order on dates. -/
def dateLE (a b : Date) : Prop := a.code ≤ b.code

instance : DecidableRel dateLE := fun a b => inferInstanceAs (Decidable (a.code ≤ b.code))

instance : IsTotal Date dateLE := ⟨fun a b => Nat.le_total a.code b.code⟩

instance : IsTrans Date dateLE := ⟨fun _ _ _ h1 h2 => Nat.le_trans h1 h2⟩

/-- Gregorian leap-year test. -/
def isLeapYear (y : Nat) : Bool := (y % 4 = 0 && y % 100 ≠ 0) || y % 400 = 0

/-- Days of the year strictly before month `m` (1-based). -/
def daysBeforeMonth (m : Nat) (leap : Bool) : Nat :=
  let base := [0, 31, 59, 90, 120, 151, 181, 212, 243, 273, 304, 334].getD (m - 1) 0
  if leap && decide (2 < m) then base + 1 else base

/-- 1-based ordinal of a date counting from 0001-01-01 (proleptic
Gregorian). -/
def dayOrdinal (d : Date) : Nat :=
  let y := d.year - 1
  365 * y + y / 4 + y / 400 - y / 100
    + daysBeforeMonth d.month (isLeapYear d.year) + d.day

/-- `Series.dt.dayofweek`: 0 = Monday .. 6 = Sunday. 0001-01-01 of the
proleptic Gregorian calendar is a Monday. -/
def dayOfWeek (d : Date) : Nat := (dayOrdinal d + 6) % 7

/-- `Series.dt.month_name()`. -/
def monthName (m : Nat) : String :=
  ["January", "February", "March", "April", "May", "June", "July",
   "August", "September", "October", "November", "December"].getD (m - 1) ""

/-- `Series.dt.day_name()` by day-of-week index. -/
def dayName (w : Nat) : String :=
  ["Monday", "Tuesday", "Wednesday", "Thursday", "Friday",
   "Saturday", "Sunday"].getD w ""

/-- One row of the date dimension (transform.py lines 60-73). The source
stores `is_weekend` as an integer via `.isin([5, 6]).astype(int)`, so it
is modelled as the integer 0 or 1, with 1 read as true. -/
structure DateDimRow where
  date : Date
  date_key : Nat
  year : Nat
  quarter : Nat
  month : Nat
  month_name : String
  day : Nat
  day_of_week : Nat
  day_name : String
  is_weekend : Nat
deriving DecidableEq, Repr

/-- `column = range(1, len(df) + 1)` paired with the rows it labels:
surrogate keys assigned by position, starting at `n`. -/
def assignKeys (n : Nat) : List α → List (Nat × α)
  | [] => []
  | x :: xs => (n, x) :: assignKeys (n + 1) xs

/-- A cleaned transaction row, with the column set fixed by the extract
collaborator (spec section 6). `amount` is a numeric column, modelled as
an integer number of cents; it passes through the transform untouched. -/
structure Transaction where
  transaction_id : String
  transaction_date : Date
  transaction_time : String
  customer_id : String
  merchant_id : String
  amount : Int
  transaction_type : String
  status : String
  payment_method : String
deriving DecidableEq, Repr

/-- A customer row, with the column set fixed by the extract
collaborator (spec section 6). -/
structure Customer where
  customer_id : String
  customer_name : String
  email : String
  phone : String
  address : String
  city : String
  state : String
  zip_code : String
  registration_date : String
  customer_segment : String
deriving DecidableEq, Repr

/-- A merchant row, with the column set fixed by the extract
collaborator (spec section 6). -/
structure Merchant where
  merchant_id : String
  merchant_name : String
  category : String
  city : String
  state : String
deriving DecidableEq, Repr

/-- `build_date_dimension` (transform.py lines 43-76): distinct
transaction dates (`unique()`, first occurrence order), sorted ascending
(`sort_values()`), surrogate keys 1..N by position, derived calendar
attributes. -/
def build_date_dimension (transactions : List Transaction) : List DateDimRow :=
  let dates := dropDuplicates (transactions.map Transaction.transaction_date)
  let sorted := List.insertionSort dateLE dates
  (assignKeys 1 sorted).map fun p =>
    { date := p.2
      date_key := p.1
      year := p.2.year
      quarter := (p.2.month + 2) / 3
      month := p.2.month
      month_name := monthName p.2.month
      day := p.2.day
      day_of_week := dayOfWeek p.2
      day_name := dayName (dayOfWeek p.2)
      is_weekend := if dayOfWeek p.2 = 5 ∨ dayOfWeek p.2 = 6 then 1 else 0 }

/- ### Customer, merchant and transaction-type dimensions -/

/-- One row of the customer dimension (transform.py lines 121-127): the
cleaned customer row plus a surrogate key and a load date. -/
structure CustomerDimRow extends Customer where
  customer_key : Nat
  load_date : String
deriving DecidableEq, Repr

/-- One row of the merchant dimension (transform.py lines 129-135). -/
structure MerchantDimRow extends Merchant where
  merchant_key : Nat
  load_date : String
deriving DecidableEq, Repr

/-- One row of the static transaction-type dimension (transform.py
lines 78-98). -/
structure TypeDimRow where
  transaction_type : String
  description : String
  transaction_type_key : Nat
deriving DecidableEq, Repr

/-- Customer dimension build step of `transform_dimensions`
(transform.py lines 121-127): `customer_key = range(1, len + 1)` by row
position, plus a load date. -/
def buildCustomerDimension (customers : List Customer) (loadDate : String) :
    List CustomerDimRow :=
  (assignKeys 1 customers).map fun p =>
    { toCustomer := p.2, customer_key := p.1, load_date := loadDate }

/-- Merchant dimension build step of `transform_dimensions`
(transform.py lines 129-135). -/
def buildMerchantDimension (merchants : List Merchant) (loadDate : String) :
    List MerchantDimRow :=
  (assignKeys 1 merchants).map fun p =>
    { toMerchant := p.2, merchant_key := p.1, load_date := loadDate }

/-- The static transaction-type list of `build_transaction_type_dimension`
(transform.py lines 87-92). -/
def transaction_types : List (String × String) :=
  [("Purchase", "Standard purchase transaction"),
   ("Refund", "Refund transaction"),
   ("Payment", "Payment transaction"),
   ("Transfer", "Transfer transaction")]

/-- `build_transaction_type_dimension` (transform.py lines 78-98):
the fixed 4-row reference table with keys `range(1, 5)`. -/
def build_transaction_type_dimension : List TypeDimRow :=
  (assignKeys 1 transaction_types).map fun p =>
    { transaction_type := p.2.1, description := p.2.2, transaction_type_key := p.1 }

/- ### Typed cleaning, mirroring `clean_data` on the three source sets -/

/-- `.str.strip()` over the object-dtype columns of a customer row: every
column of the customers CSV is a string column. -/
def stripCustomer (c : Customer) : Customer :=
  { customer_id := pyStrip c.customer_id
    customer_name := pyStrip c.customer_name
    email := pyStrip c.email
    phone := pyStrip c.phone
    address := pyStrip c.address
    city := pyStrip c.city
    state := pyStrip c.state
    zip_code := pyStrip c.zip_code
    registration_date := pyStrip c.registration_date
    customer_segment := pyStrip c.customer_segment }

/-- `.str.strip()` over the object-dtype columns of a merchant row. -/
def stripMerchant (m : Merchant) : Merchant :=
  { merchant_id := pyStrip m.merchant_id
    merchant_name := pyStrip m.merchant_name
    category := pyStrip m.category
    city := pyStrip m.city
    state := pyStrip m.state }

/-- `.str.strip()` over the object-dtype columns of a transaction row:
`amount` is numeric and `transaction_date` is a date value, so neither is
touched; the remaining columns are strings. -/
def stripTransaction (t : Transaction) : Transaction :=
  { t with
    transaction_id := pyStrip t.transaction_id
    transaction_time := pyStrip t.transaction_time
    customer_id := pyStrip t.customer_id
    merchant_id := pyStrip t.merchant_id
    transaction_type := pyStrip t.transaction_type
    status := pyStrip t.status
    payment_method := pyStrip t.payment_method }

/-- `clean_data` specialised to a typed record set: drop duplicate rows
(first occurrence kept), then trim the string columns of each survivor. -/
def cleanRecords [DecidableEq α] (strip : α → α) (l : List α) : List α :=
  (dropDuplicates l).map strip

/- ### Fact resolution -/

/-- A Python `dict` built by inserting key/value pairs in list order
(`Series.to_dict()`): a later pair with the same key overwrites an
earlier one; `toDict pairs` is the resulting `dict.get`. -/
def dictInsert [DecidableEq α] (m : α → Option β) (k : α) (v : β) : α → Option β :=
  fun x => if x = k then some v else m x

/-- `set_index(naturalId)[surrogateKey].to_dict()` followed by `.map`
lookup semantics: `none` models the NaN produced by a missed lookup. -/
def toDict [DecidableEq α] (pairs : List (α × β)) : α → Option β :=
  pairs.foldl (fun m p => dictInsert m p.1 p.2) fun _ => none

/-- One row of the fact table, with the final column selection of
transform.py lines 184-189. The four foreign keys are `Option Nat`:
`none` models the NaN left by an unresolved reference. -/
structure FactRow where
  transaction_id : String
  date_key : Option Nat
  customer_key : Option Nat
  merchant_key : Option Nat
  transaction_type_key : Option Nat
  amount : Int
  status : String
  payment_method : String
  transaction_time : String
  load_timestamp : String
deriving DecidableEq, Repr

/-- `transform_facts` (transform.py lines 146-193): build one natural-id
to surrogate-key dict per dimension, then resolve each cleaned
transaction row by dict lookup, stamping one shared load timestamp. -/
def transform_facts (transactions : List Transaction)
    (dimCustomers : List CustomerDimRow) (dimMerchants : List MerchantDimRow)
    (dimDate : List DateDimRow) (dimType : List TypeDimRow)
    (loadTimestamp : String) : List FactRow :=
  let customer_lookup := toDict (dimCustomers.map fun r => (r.customer_id, r.customer_key))
  let merchant_lookup := toDict (dimMerchants.map fun r => (r.merchant_id, r.merchant_key))
  let date_lookup := toDict (dimDate.map fun r => (r.date, r.date_key))
  let type_lookup := toDict (dimType.map fun r => (r.transaction_type, r.transaction_type_key))
  transactions.map fun t =>
    { transaction_id := t.transaction_id
      date_key := date_lookup t.transaction_date
      customer_key := customer_lookup t.customer_id
      merchant_key := merchant_lookup t.merchant_id
      transaction_type_key := type_lookup t.transaction_type
      amount := t.amount
      status := t.status
      payment_method := t.payment_method
      transaction_time := t.transaction_time
      load_timestamp := loadTimestamp }

/-- The four dimension tables returned by `transform_dimensions`. -/
structure Dimensions where
  dim_customers : List CustomerDimRow
  dim_merchants : List MerchantDimRow
  dim_date : List DateDimRow
  dim_transaction_type : List TypeDimRow
deriving DecidableEq, Repr

/-- `transform_dimensions` (transform.py lines 100-144): clean the three
source sets, build the four dimensions, and also return the cleaned
transactions for the fact build. -/
def transform_dimensions (customers : List Customer) (merchants : List Merchant)
    (transactions : List Transaction) (loadDate : String) :
    Dimensions × List Transaction :=
  let cleanedCustomers := cleanRecords stripCustomer customers
  let cleanedMerchants := cleanRecords stripMerchant merchants
  let cleanedTransactions := cleanRecords stripTransaction transactions
  (⟨buildCustomerDimension cleanedCustomers loadDate,
    buildMerchantDimension cleanedMerchants loadDate,
    build_date_dimension cleanedTransactions,
    build_transaction_type_dimension⟩,
   cleanedTransactions)

/-- The five named tables returned by `transform_all`. -/
structure WarehouseTables where
  dim_customers : List CustomerDimRow
  dim_merchants : List MerchantDimRow
  dim_date : List DateDimRow
  dim_transaction_type : List TypeDimRow
  fact_transactions : List FactRow
deriving DecidableEq, Repr

/-- `transform_all` (transform.py lines 195-215): dimensions, then
facts, assembled into one result set. -/
def transform_all (customers : List Customer) (merchants : List Merchant)
    (transactions : List Transaction) (loadDate loadTimestamp : String) :
    WarehouseTables :=
  let built := transform_dimensions customers merchants transactions loadDate
  { dim_customers := built.1.dim_customers
    dim_merchants := built.1.dim_merchants
    dim_date := built.1.dim_date
    dim_transaction_type := built.1.dim_transaction_type
    fact_transactions := transform_facts built.2 built.1.dim_customers
      built.1.dim_merchants built.1.dim_date built.1.dim_transaction_type
      loadTimestamp }

/- ### Lemmas about `assignKeys`, `toDict` and mapped zips -/

theorem assignKeys_map_fst (n : Nat) (l : List α) :
    (assignKeys n l).map Prod.fst = List.range' n l.length := by
  induction l generalizing n with
  | nil => rfl
  | cons x xs ih =>
    simp only [assignKeys, List.map_cons, List.length_cons, List.range'_succ]
    rw [ih]

theorem assignKeys_map_snd (n : Nat) (l : List α) :
    (assignKeys n l).map Prod.snd = l := by
  induction l generalizing n with
  | nil => rfl
  | cons x xs ih =>
    simp only [assignKeys, List.map_cons]
    rw [ih]

theorem assignKeys_length (n : Nat) (l : List α) :
    (assignKeys n l).length = l.length := by
  have := congrArg List.length (assignKeys_map_snd n l)
  simpa using this

theorem toDict_append_singleton [DecidableEq α] (l : List (α × β)) (q : α × β) (k : α) :
    toDict (l ++ [q]) k = if k = q.1 then some q.2 else toDict l k := by
  unfold toDict
  rw [List.foldl_append]
  rfl

theorem getLast?_mem_of_ne_nil : ∀ (l : List α), l ≠ [] → ∃ a, l.getLast? = some a ∧ a ∈ l := by
  intro l
  induction l with
  | nil => intro h; exact absurd rfl h
  | cons x xs ih =>
    intro _
    cases xs with
    | nil => exact ⟨x, rfl, List.mem_singleton_self x⟩
    | cons y ys =>
      obtain ⟨a, ha, hmem⟩ := ih (by simp)
      exact ⟨a, by rw [List.getLast?_cons_cons]; exact ha, List.mem_cons_of_mem x hmem⟩

/-- Characterization of Python dict construction: the lookup returns the
value of the last pair carrying the requested key. -/
theorem toDict_eq_getLast [DecidableEq α] (l : List (α × β)) (k : α) :
    toDict l k = ((l.filter fun p => p.1 = k).getLast?).map Prod.snd := by
  induction l using List.reverseRecOn with
  | nil => rfl
  | append_singleton l q ih =>
    rw [toDict_append_singleton, List.filter_append]
    by_cases hk : q.1 = k
    · have : [q].filter (fun p => p.1 = k) = [q] := by simp [hk]
      rw [this, if_pos hk.symm, List.getLast?_concat]
      rfl
    · have : [q].filter (fun p => p.1 = k) = [] := by simp [hk]
      rw [this, List.append_nil, if_neg (fun he => hk he.symm), ih]

theorem toDict_eq_some_of_exists [DecidableEq α] (l : List (α × β)) (k : α)
    (h : ∃ p ∈ l, p.1 = k) : ∃ v, toDict l k = some v ∧ (k, v) ∈ l := by
  obtain ⟨p, hp, hpk⟩ := h
  have hpf : p ∈ l.filter fun p => p.1 = k := List.mem_filter.mpr ⟨hp, by simp [hpk]⟩
  obtain ⟨q, hq, hqmem⟩ := getLast?_mem_of_ne_nil _ (List.ne_nil_of_mem hpf)
  have hqk : q.1 = k := by
    have := (List.mem_filter.mp hqmem).2
    simpa using this
  refine ⟨q.2, ?_, ?_⟩
  · rw [toDict_eq_getLast, hq]
    rfl
  · have : (k, q.2) = q := by
      cases q
      simp_all
    rw [this]
    exact (List.mem_filter.mp hqmem).1

theorem toDict_eq_none_of_forall [DecidableEq α] (l : List (α × β)) (k : α)
    (h : ∀ p ∈ l, p.1 ≠ k) : toDict l k = none := by
  rw [toDict_eq_getLast]
  have : l.filter (fun p => p.1 = k) = [] := by
    rw [List.filter_eq_nil_iff]
    intro a ha
    simpa using h a ha
  rw [this]
  rfl

/-- Last write wins: if `q` is the last pair of `l` whose key is `k`,
the dict lookup at `k` yields the value of `q`. -/
theorem toDict_last_wins [DecidableEq α] (l₁ l₂ : List (α × β)) (q : α × β) (k : α)
    (hq : q.1 = k) (h2 : ∀ p ∈ l₂, p.1 ≠ k) : toDict (l₁ ++ q :: l₂) k = some q.2 := by
  rw [toDict_eq_getLast, List.filter_append]
  have hf2 : l₂.filter (fun p => p.1 = k) = [] := by
    rw [List.filter_eq_nil_iff]
    intro a ha
    simpa using h2 a ha
  rw [List.filter_cons_of_pos (by simp [hq]), hf2, List.getLast?_concat]
  rfl

theorem zip_map_eq (l : List α) (f : α → β) :
    l.zip (l.map f) = l.map fun x => (x, f x) := by
  induction l with
  | nil => rfl
  | cons x xs ih => simp only [List.map_cons, List.zip_cons_cons, ih]

theorem snd_of_mem_zip_map {l : List α} {f : α → β} {t : α} {fr : β}
    (h : (t, fr) ∈ l.zip (l.map f)) : t ∈ l ∧ fr = f t := by
  rw [zip_map_eq] at h
  obtain ⟨x, hx, hxe⟩ := List.mem_map.mp h
  obtain ⟨h1, h2⟩ := Prod.mk.injEq .. |>.mp hxe
  subst h1
  exact ⟨hx, h2.symm⟩

/- ### Claim theorems -/

/-- C1: for every cleaned customer record set of size N, the customer
dimension build assigns surrogate keys exactly `range(1, N + 1)` — the
set {1,...,N}, each key used once — with key k on the row at 1-based
position k of the cleaned input order (the first conjunct lists the keys
in row order, the second shows row k of the dimension is row k of the
cleaned input). -/
theorem customer_dim_surrogate_keys (customers : List Customer) (loadDate : String) :
    (buildCustomerDimension customers loadDate).map CustomerDimRow.customer_key
        = List.range' 1 customers.length
  ∧ (buildCustomerDimension customers loadDate).map CustomerDimRow.toCustomer
        = customers := by
  constructor
  · rw [buildCustomerDimension, List.map_map]
    exact assignKeys_map_fst 1 customers
  · rw [buildCustomerDimension, List.map_map]
    exact assignKeys_map_snd 1 customers

/-- C2: the date dimension holds exactly one row per distinct transaction
date (its dates are a permutation of the deduplicated date column), its
`date_key` column is `1..N` in row order, its rows are in ascending
chronological order, and an empty cleaned transaction set yields an empty
date dimension (the build is total, so no error is possible). -/
theorem date_dimension_distinct_sorted_keys (transactions : List Transaction) :
    (build_date_dimension transactions).map DateDimRow.date_key
        = List.range' 1 (build_date_dimension transactions).length
  ∧ List.Perm ((build_date_dimension transactions).map DateDimRow.date)
      (dropDuplicates (transactions.map Transaction.transaction_date))
  ∧ List.Sorted dateLE ((build_date_dimension transactions).map DateDimRow.date)
  ∧ (transactions = [] → build_date_dimension transactions = []) := by
  have hdate : (build_date_dimension transactions).map DateDimRow.date
      = List.insertionSort dateLE
          (dropDuplicates (transactions.map Transaction.transaction_date)) := by
    rw [build_date_dimension, List.map_map]
    exact assignKeys_map_snd 1 _
  refine ⟨?_, ?_, ?_, ?_⟩
  · rw [build_date_dimension, List.map_map, List.length_map, assignKeys_length]
    exact assignKeys_map_fst 1 _
  · rw [hdate]
    exact List.perm_insertionSort dateLE _
  · rw [hdate]
    exact List.sorted_insertionSort dateLE _
  · intro h
    subst h
    rfl

/-- C2 witness: the empty cleaned transaction set yields an empty date
dimension. -/
theorem date_dimension_empty_witness : build_date_dimension [] = [] :=
  (date_dimension_distinct_sorted_keys []).2.2.2 rfl

/-- The natural-id to surrogate-key dict of `transform_facts` resolves a
natural id that has a dimension row to the key of such a row. -/
theorem lookup_hits [DecidableEq γ] (rows : List δ) (nid : δ → γ) (key : δ → Nat)
    (k : γ) (h : ∃ r ∈ rows, nid r = k) :
    ∃ r ∈ rows, nid r = k ∧ toDict (rows.map fun r => (nid r, key r)) k = some (key r) := by
  obtain ⟨r0, hr0, hk0⟩ := h
  obtain ⟨v, hv, hvmem⟩ := toDict_eq_some_of_exists (rows.map fun r => (nid r, key r)) k
    ⟨(nid r0, key r0), List.mem_map_of_mem _ hr0, hk0⟩
  obtain ⟨r, hr, hre⟩ := List.mem_map.mp hvmem
  obtain ⟨h1, h2⟩ := Prod.mk.injEq .. |>.mp hre
  exact ⟨r, hr, h1, by rw [hv, h2]⟩

/-- The dict of `transform_facts` resolves a natural id with no dimension
row to `none` (NaN). -/
theorem lookup_misses [DecidableEq γ] (rows : List δ) (nid : δ → γ) (key : δ → Nat)
    (k : γ) (h : ∀ r ∈ rows, nid r ≠ k) :
    toDict (rows.map fun r => (nid r, key r)) k = none := by
  refine toDict_eq_none_of_forall _ _ ?_
  rintro p hp
  obtain ⟨r, hr, rfl⟩ := List.mem_map.mp hp
  exact h r hr

/-- The dict of `transform_facts` resolves a duplicated natural id to the
key of the last dimension row carrying it. -/
theorem lookup_last [DecidableEq γ] (pre post : List δ) (q : δ) (nid : δ → γ)
    (key : δ → Nat) (k : γ) (hq : nid q = k) (h2 : ∀ r ∈ post, nid r ≠ k) :
    toDict ((pre ++ q :: post).map fun r => (nid r, key r)) k = some (key q) := by
  rw [List.map_append, List.map_cons]
  refine toDict_last_wins _ _ _ _ hq ?_
  rintro p hp
  obtain ⟨r, hr, rfl⟩ := List.mem_map.mp hp
  exact h2 r hr

/-- C3: fact referential integrity. For a transaction row `t` and the
fact row `fr` produced from it (paired by position via `zip`), whenever
the natural customer id, merchant id, transaction date or transaction
type of `t` is carried by some row of the corresponding dimension table,
the resolved surrogate key in `fr` is non-null and equals the surrogate
key of a dimension row carrying that natural id. -/
theorem fact_referential_integrity
    (transactions : List Transaction) (dimCustomers : List CustomerDimRow)
    (dimMerchants : List MerchantDimRow) (dimDate : List DateDimRow)
    (dimType : List TypeDimRow) (loadTimestamp : String)
    (t : Transaction) (fr : FactRow)
    (hmem : (t, fr) ∈ transactions.zip (transform_facts transactions dimCustomers
        dimMerchants dimDate dimType loadTimestamp)) :
    ((∃ r ∈ dimCustomers, r.customer_id = t.customer_id) →
        ∃ r ∈ dimCustomers, r.customer_id = t.customer_id
          ∧ fr.customer_key = some r.customer_key)
  ∧ ((∃ r ∈ dimMerchants, r.merchant_id = t.merchant_id) →
        ∃ r ∈ dimMerchants, r.merchant_id = t.merchant_id
          ∧ fr.merchant_key = some r.merchant_key)
  ∧ ((∃ r ∈ dimDate, r.date = t.transaction_date) →
        ∃ r ∈ dimDate, r.date = t.transaction_date
          ∧ fr.date_key = some r.date_key)
  ∧ ((∃ r ∈ dimType, r.transaction_type = t.transaction_type) →
        ∃ r ∈ dimType, r.transaction_type = t.transaction_type
          ∧ fr.transaction_type_key = some r.transaction_type_key) := by
  simp only [transform_facts] at hmem
  obtain ⟨-, rfl⟩ := snd_of_mem_zip_map hmem
  refine ⟨?_, ?_, ?_, ?_⟩
  · intro h
    obtain ⟨r, hr, hk, hd⟩ := lookup_hits dimCustomers
      (fun r => r.customer_id) (fun r => r.customer_key) t.customer_id h
    exact ⟨r, hr, hk, hd⟩
  · intro h
    obtain ⟨r, hr, hk, hd⟩ := lookup_hits dimMerchants
      (fun r => r.merchant_id) (fun r => r.merchant_key) t.merchant_id h
    exact ⟨r, hr, hk, hd⟩
  · intro h
    obtain ⟨r, hr, hk, hd⟩ := lookup_hits dimDate
      (fun r => r.date) (fun r => r.date_key) t.transaction_date h
    exact ⟨r, hr, hk, hd⟩
  · intro h
    obtain ⟨r, hr, hk, hd⟩ := lookup_hits dimType
      (fun r => r.transaction_type) (fun r => r.transaction_type_key) t.transaction_type h
    exact ⟨r, hr, hk, hd⟩

/-- C4: unresolved references become null, never dropped and never
defaulted. For every cleaned transaction whose customer id, merchant id,
date or type has no matching dimension row, the corresponding foreign key
of its fact row is `none` (pandas NaN), the row itself is kept (the fact
table has exactly one row per transaction), and the whole transform still
completes: `transform_all` is total and its fact table has one row per
cleaned transaction. -/
theorem fact_null_on_unresolved
    (transactions : List Transaction) (dimCustomers : List CustomerDimRow)
    (dimMerchants : List MerchantDimRow) (dimDate : List DateDimRow)
    (dimType : List TypeDimRow) (loadTimestamp : String) :
    (transform_facts transactions dimCustomers dimMerchants dimDate dimType
        loadTimestamp).length = transactions.length
  ∧ (∀ (t : Transaction) (fr : FactRow),
      (t, fr) ∈ transactions.zip (transform_facts transactions dimCustomers
          dimMerchants dimDate dimType loadTimestamp) →
        ((∀ r ∈ dimCustomers, r.customer_id ≠ t.customer_id) → fr.customer_key = none)
      ∧ ((∀ r ∈ dimMerchants, r.merchant_id ≠ t.merchant_id) → fr.merchant_key = none)
      ∧ ((∀ r ∈ dimDate, r.date ≠ t.transaction_date) → fr.date_key = none)
      ∧ ((∀ r ∈ dimType, r.transaction_type ≠ t.transaction_type) →
            fr.transaction_type_key = none))
  ∧ ∀ (rawCustomers : List Customer) (rawMerchants : List Merchant)
      (rawTransactions : List Transaction) (loadDate ts : String),
      (transform_all rawCustomers rawMerchants rawTransactions loadDate
          ts).fact_transactions.length
        = (cleanRecords stripTransaction rawTransactions).length := by
  refine ⟨by simp [transform_facts], ?_, ?_⟩
  · intro t fr hmem
    simp only [transform_facts] at hmem
    obtain ⟨-, rfl⟩ := snd_of_mem_zip_map hmem
    refine ⟨?_, ?_, ?_, ?_⟩
    · intro h
      exact lookup_misses dimCustomers (fun r => r.customer_id)
        (fun r => r.customer_key) t.customer_id h
    · intro h
      exact lookup_misses dimMerchants (fun r => r.merchant_id)
        (fun r => r.merchant_key) t.merchant_id h
    · intro h
      exact lookup_misses dimDate (fun r => r.date)
        (fun r => r.date_key) t.transaction_date h
    · intro h
      exact lookup_misses dimType (fun r => r.transaction_type)
        (fun r => r.transaction_type_key) t.transaction_type h
  · intro rawCustomers rawMerchants rawTransactions loadDate ts
    simp [transform_all, transform_dimensions, transform_facts]

/-- C5: row-count conservation and order preservation. The fact table
has exactly as many rows as the cleaned transaction input, and the fact
row at each position carries the transaction id of the transaction at the
same position of the input. -/
theorem fact_row_count_and_order
    (transactions : List Transaction) (dimCustomers : List CustomerDimRow)
    (dimMerchants : List MerchantDimRow) (dimDate : List DateDimRow)
    (dimType : List TypeDimRow) (loadTimestamp : String) :
    (transform_facts transactions dimCustomers dimMerchants dimDate dimType
        loadTimestamp).length = transactions.length
  ∧ ∀ i : Nat,
      ((transform_facts transactions dimCustomers dimMerchants dimDate dimType
          loadTimestamp)[i]?).map FactRow.transaction_id
        = (transactions[i]?).map Transaction.transaction_id := by
  constructor
  · simp [transform_facts]
  · intro i
    simp only [transform_facts, List.getElem?_map]
    cases transactions[i]? with
    | none => rfl
    | some t => rfl

/-- C9: when a natural id occurs in several rows of its dimension table,
fact resolution uses the surrogate key of the LAST dimension row bearing
it — dict construction overwrites earlier bindings — for both the
customer and the merchant dimension. -/
theorem duplicate_natural_id_last_wins
    (transactions : List Transaction) (dimCustomers : List CustomerDimRow)
    (dimMerchants : List MerchantDimRow) (dimDate : List DateDimRow)
    (dimType : List TypeDimRow) (loadTimestamp : String)
    (t : Transaction) (fr : FactRow)
    (hmem : (t, fr) ∈ transactions.zip (transform_facts transactions dimCustomers
        dimMerchants dimDate dimType loadTimestamp)) :
    (∀ (pre post : List CustomerDimRow) (q : CustomerDimRow),
        dimCustomers = pre ++ q :: post →
        q.customer_id = t.customer_id →
        (∃ r' ∈ pre, r'.customer_id = t.customer_id) →
        (∀ r' ∈ post, r'.customer_id ≠ t.customer_id) →
        fr.customer_key = some q.customer_key)
  ∧ (∀ (pre post : List MerchantDimRow) (q : MerchantDimRow),
        dimMerchants = pre ++ q :: post →
        q.merchant_id = t.merchant_id →
        (∃ r' ∈ pre, r'.merchant_id = t.merchant_id) →
        (∀ r' ∈ post, r'.merchant_id ≠ t.merchant_id) →
        fr.merchant_key = some q.merchant_key) := by
  simp only [transform_facts] at hmem
  obtain ⟨-, rfl⟩ := snd_of_mem_zip_map hmem
  constructor
  · intro pre post q hsplit hq _ hpost
    subst hsplit
    exact lookup_last pre post q (fun r => r.customer_id)
      (fun r => r.customer_key) t.customer_id hq hpost
  · intro pre post q hsplit hq _ hpost
    subst hsplit
    exact lookup_last pre post q (fun r => r.merchant_id)
      (fun r => r.merchant_key) t.merchant_id hq hpost

/-- C6 counterexample: cleaning is NOT idempotent. In `clean_data`,
trimming runs after duplicate removal, so two rows distinct only by
surrounding whitespace survive `drop_duplicates()` and then become equal;
a second clean removes one of them. -/
theorem clean_data_not_idempotent :
    clean_data (clean_data dupFrame) ≠ clean_data dupFrame := by decide

/-- C6 amended: a single clean need not be a fixed point, but cleaning
twice is one — `clean(clean(clean(X))) = clean(clean(X))` for every
record set X. -/
theorem clean_twice_fixed_point (df : Frame) :
    clean_data (clean_data (clean_data df)) = clean_data (clean_data df) := by
  apply clean_data_eq_self
  · rw [clean_data_clean_data_rows]
    exact nodup_dropDuplicates _
  · intro r hr
    rw [clean_data_clean_data_rows] at hr
    have hrv := (dropDuplicates_sublist _).subset hr
    obtain ⟨y, -, rfl⟩ := List.mem_map.mp hrv
    exact stripRowUsing_idem df.objectCol y

/-- C7 counterexample: the output of `clean_data` can contain two fully
identical rows, because whitespace trimming happens after duplicate
removal. -/
theorem clean_output_contains_duplicates :
    ¬ (clean_data dupFrame).rows.Nodup := by decide

/-- C7 amended: the cleaned output has at most as many rows as the
input, and it is the trimmed image of a duplicate-free sublist of the
input rows (first occurrences, in input order) — so order among
surviving rows is preserved; pairwise distinctness of the OUTPUT rows,
however, does not hold in general. -/
theorem clean_output_shape (df : Frame) :
    (clean_data df).rows.length ≤ df.rows.length
  ∧ ∃ l, List.Sublist l df.rows ∧ l.Nodup
      ∧ (clean_data df).rows = l.map (stripRowUsing df.objectCol) := by
  refine ⟨?_, dropDuplicates df.rows, dropDuplicates_sublist _,
    nodup_dropDuplicates _, rfl⟩
  rw [clean_data_rows, List.length_map]
  exact (dropDuplicates_sublist _).length_le

theorem weekend_flag_of_lt (w : Nat) (h7 : w < 7) :
    ((if w = 5 ∨ w = 6 then 1 else 0) = 0 ∨ (if w = 5 ∨ w = 6 then 1 else 0) = 1)
  ∧ ((if w = 5 ∨ w = 6 then 1 else 0) = 1 ↔ (w = 5 ∨ w = 6))
  ∧ ((if w = 5 ∨ w = 6 then 1 else 0) = 1
        ↔ (dayName w = "Saturday" ∨ dayName w = "Sunday")) := by
  have hc : w = 0 ∨ w = 1 ∨ w = 2 ∨ w = 3 ∨ w = 4 ∨ w = 5 ∨ w = 6 := by omega
  rcases hc with rfl | rfl | rfl | rfl | rfl | rfl | rfl <;> decide

/-- C8: for every date dimension row, the weekend flag (stored by the
source as an integer via `.astype(int)`) is 0 or 1, and it is 1 — true —
exactly when the row's day-of-week index (0 = Monday .. 6 = Sunday) is 5
or 6, equivalently when the row's day name is Saturday or Sunday. -/
theorem is_weekend_flag (transactions : List Transaction) (row : DateDimRow)
    (hrow : row ∈ build_date_dimension transactions) :
    (row.is_weekend = 0 ∨ row.is_weekend = 1)
  ∧ (row.is_weekend = 1 ↔ (row.day_of_week = 5 ∨ row.day_of_week = 6))
  ∧ (row.is_weekend = 1 ↔ (row.day_name = "Saturday" ∨ row.day_name = "Sunday")) := by
  simp only [build_date_dimension] at hrow
  obtain ⟨p, -, rfl⟩ := List.mem_map.mp hrow
  exact weekend_flag_of_lt (dayOfWeek p.2) (Nat.mod_lt _ (by norm_num))

/-- C10: mixed-type handling of `clean_data`. The cleaned rows are the
trimmed images of the deduplicated input rows; within a row, the cell of
a column flagged as object dtype is mapped through `stripCell` while the
cell of a non-object column is left entirely untouched; and `stripCell`
sends every non-string value to null (NaN) rather than keeping it. -/
theorem clean_nonstring_cells_nulled (df : Frame) :
    (clean_data df).rows = (dropDuplicates df.rows).map (stripRowUsing df.objectCol)
  ∧ (∀ (flags : List Bool) (cells : List Value) (i : Nat) (f : Bool) (v : Value),
        flags[i]? = some f → cells[i]? = some v →
        (stripRowUsing flags cells)[i]? = some (if f then stripCell v else v))
  ∧ (∀ v : Value, (∀ s, v ≠ Value.str s) → stripCell v = Value.null) := by
  refine ⟨rfl, ?_, ?_⟩
  · intro flags
    induction flags with
    | nil =>
      intro cells i f v hf _
      simp at hf
    | cons fl fls ih =>
      intro cells i f v hf hv
      cases cells with
      | nil => simp at hv
      | cons c cs =>
        have hcons : stripRowUsing (fl :: fls) (c :: cs)
            = (if fl then stripCell c else c) :: stripRowUsing fls cs := rfl
        cases i with
        | zero =>
          simp only [List.getElem?_cons_zero, Option.some.injEq] at hf hv
          subst hf
          subst hv
          rw [hcons, List.getElem?_cons_zero]
        | succ n =>
          simp only [List.getElem?_cons_succ] at hf hv
          rw [hcons, List.getElem?_cons_succ]
          exact ih cs n f v hf hv
  · intro v h
    cases v with
    | str s => exact absurd rfl (h s)
    | num n => rfl
    | null => rfl

/- ### Concrete example data for the witnesses -/

/-- An example customer. -/
def exCustomer : Customer :=
  { customer_id := "CUST0001", customer_name := "Alice Smith",
    email := "alice@example.com", phone := "555-0100", address := "1 Main St",
    city := "Springfield", state := "IL", zip_code := "62701",
    registration_date := "2023-05-01", customer_segment := "Retail" }

/-- A second customer sharing the same natural id (possible after
cleaning when the rows differ in another column). -/
def exCustomerDup : Customer := { exCustomer with customer_name := "Alice Jones" }

/-- An example merchant. -/
def exMerchant : Merchant :=
  { merchant_id := "MERCH001", merchant_name := "Acme Corp",
    category := "Retail", city := "Springfield", state := "IL" }

/-- An example cleaned transaction dated Saturday 2024-01-06. -/
def exTx : Transaction :=
  { transaction_id := "TXN00001", transaction_date := ⟨2024, 1, 6⟩,
    transaction_time := "10:00:00", customer_id := "CUST0001",
    merchant_id := "MERCH001", amount := 2500, transaction_type := "Purchase",
    status := "Completed", payment_method := "Credit Card" }

/-- A transaction whose customer id matches no customer dimension row. -/
def exTxGhost : Transaction :=
  { exTx with transaction_id := "TXN00002", customer_id := "CUSTX999" }

/-- Customer dimension row with key 1 for `exCustomer`. -/
def exCustomerDimRow : CustomerDimRow :=
  { toCustomer := exCustomer, customer_key := 1, load_date := "2024-01-01" }

/-- Customer dimension row with key 2 for the duplicate natural id. -/
def exCustomerDimRowB : CustomerDimRow :=
  { toCustomer := exCustomerDup, customer_key := 2, load_date := "2024-01-01" }

/-- Merchant dimension row with key 1. -/
def exMerchantDimRow : MerchantDimRow :=
  { toMerchant := exMerchant, merchant_key := 1, load_date := "2024-01-01" }

/-- The date dimension row generated for Saturday 2024-01-06. -/
def exSatRow : DateDimRow :=
  { date := ⟨2024, 1, 6⟩, date_key := 1, year := 2024, quarter := 1, month := 1,
    month_name := "January", day := 6, day_of_week := 5, day_name := "Saturday",
    is_weekend := 1 }

/-- The Purchase row of the transaction-type dimension. -/
def exTypeDimRow : TypeDimRow :=
  { transaction_type := "Purchase",
    description := "Standard purchase transaction", transaction_type_key := 1 }

/-- The fact row resolved from `exTx` against the example dimensions. -/
def exFact : FactRow :=
  { transaction_id := "TXN00001", date_key := some 1, customer_key := some 1,
    merchant_key := some 1, transaction_type_key := some 1, amount := 2500,
    status := "Completed", payment_method := "Credit Card",
    transaction_time := "10:00:00", load_timestamp := "2024-01-01 00:00:00" }

/-- The fact row resolved from `exTxGhost`: its customer key is null. -/
def exFactGhost : FactRow :=
  { exFact with transaction_id := "TXN00002", customer_key := none }

/-- The fact row resolved from `exTx` when the customer dimension holds
two rows with the same natural id: the later key, 2, wins. -/
def exFactDupCust : FactRow := { exFact with customer_key := some 2 }

/-- C3 witness: with the example transaction and dimensions, the resolved
customer key is non-null and matches the dimension row carrying the
transaction's customer id. -/
theorem fact_referential_integrity_witness :
    ∃ r ∈ [exCustomerDimRow], r.customer_id = exTx.customer_id
      ∧ exFact.customer_key = some r.customer_key :=
  (fact_referential_integrity [exTx] [exCustomerDimRow] [exMerchantDimRow]
    [exSatRow] [exTypeDimRow] "2024-01-01 00:00:00" exTx exFact (by decide)).1
    (by decide)

/-- C4 witness: injecting one transaction with an unknown customer id
yields a fact table that still has one row, whose customer key is null. -/
theorem fact_null_on_unresolved_witness :
    (transform_facts [exTxGhost] [exCustomerDimRow] [exMerchantDimRow]
        [exSatRow] [exTypeDimRow] "2024-01-01 00:00:00").length = 1
  ∧ exFactGhost.customer_key = none :=
  ⟨(fact_null_on_unresolved [exTxGhost] [exCustomerDimRow] [exMerchantDimRow]
      [exSatRow] [exTypeDimRow] "2024-01-01 00:00:00").1,
   ((fact_null_on_unresolved [exTxGhost] [exCustomerDimRow] [exMerchantDimRow]
      [exSatRow] [exTypeDimRow] "2024-01-01 00:00:00").2.1 exTxGhost exFactGhost
      (by decide)).1 (by decide)⟩

/-- C8 witness: the date dimension row generated for Saturday 2024-01-06
has weekend flag 1, day-of-week 5 and day name Saturday. -/
theorem is_weekend_flag_witness :
    (exSatRow.is_weekend = 0 ∨ exSatRow.is_weekend = 1)
  ∧ (exSatRow.is_weekend = 1 ↔ (exSatRow.day_of_week = 5 ∨ exSatRow.day_of_week = 6))
  ∧ (exSatRow.is_weekend = 1
        ↔ (exSatRow.day_name = "Saturday" ∨ exSatRow.day_name = "Sunday")) :=
  is_weekend_flag [exTx] exSatRow (by decide)

/-- C9 witness: with two customer dimension rows sharing the natural id
CUST0001 under keys 1 and 2, the resolved customer key is 2 — the later
row's key. -/
theorem duplicate_natural_id_last_wins_witness :
    exFactDupCust.customer_key = some exCustomerDimRowB.customer_key :=
  (duplicate_natural_id_last_wins [exTx] [exCustomerDimRow, exCustomerDimRowB]
      [exMerchantDimRow] [exSatRow] [exTypeDimRow] "2024-01-01 00:00:00" exTx
      exFactDupCust (by decide)).1 [exCustomerDimRow] [] exCustomerDimRowB rfl
      (by decide) (by decide) (by decide)

/-- C10 witness: a numeric cell sitting in an object-dtype column is
turned into null by the strip step. -/
theorem clean_nonstring_cells_nulled_witness :
    (stripRowUsing [true] [Value.num 3])[0]?
      = some (if true then stripCell (Value.num 3) else Value.num 3) :=
  (clean_nonstring_cells_nulled dupFrame).2.1 [true] [Value.num 3] 0 true
    (Value.num 3) rfl rfl
